import Mathlib

/-!
# Verification of the ChatoCat signaling relay

Shallow embedding of the Socket.IO signaling relay implemented in the
`io.on("connection", ...)` block of `server.js`, together with proofs of the
delivery properties the design document states about it.

Modelling conventions:

* `JVal` models the JavaScript values the relay inspects: `undefined` (which
  also stands for `null`), strings, arrays, and plain objects given as
  key/value field lists.  All identities, room ids and session ids the relay
  compares are strings, on which JavaScript strict equality `===` and the
  adapter's `Map`/`Set` key lookup (SameValueZero) coincide with structural
  equality.  Object and array payload values are only carried opaquely,
  never compared by the relay, so structural equality on `JVal` is adequate.
* A live Socket.IO socket is a `Socket`: its transport-assigned `id` and the
  rooms it has joined.  Socket.IO keeps the room set as a JS `Set`
  (duplicate-free; joining an already-joined room is a no-op), and on
  connection every socket is a member of the room named by its own id.
* `io.to(room).emit(ev, payload)` enqueues `(ev, payload)` onto the
  transport of every currently connected socket that is a member of `room`
  — including the emitting or disconnecting socket itself when it is a
  member, since `io.to` (unlike `socket.to`) does not exclude the sender.
  A `Delivery` records one such enqueue; this matches the system's
  fire-and-forget transport model, in which the relay never observes
  whether the peer actually received the packet.
* Each `socket.on` handler becomes a function from the server state (and the
  originating socket id where the handler uses `socket`) and the event
  payload to the updated state and/or the list of deliveries it enqueues, in
  emission order.  Handlers that only emit return just the deliveries: the
  source never touches the room registry in them.
* Property access `x.f` on a JavaScript object that lacks `f` yields
  `undefined`; this is `JVal.get`.  (Access on `undefined` itself throws in
  JS; the relay only dereferences payloads that the claims or guards supply
  as objects, and `get` conservatively returns `undefined` there.)
-/

/-- JavaScript values as far as the relay inspects them: `undefined`/`null`,
strings, arrays, and plain objects as association lists of fields. -/
inductive JVal : Type where
  | undefined : JVal
  | str : String → JVal
  | arr : List JVal → JVal
  | obj : List (String × JVal) → JVal
  deriving Repr

mutual
/-- Structural equality test on `JVal` (mutually with lists of values and
field lists).  On the string and `undefined` values the relay actually
compares, this coincides with JavaScript `===` and SameValueZero. -/
def JVal.beq : JVal → JVal → Bool
  | .undefined, .undefined => true
  | .str a, .str b => a == b
  | .arr as, .arr bs => JVal.beqList as bs
  | .obj fs, .obj gs => JVal.beqFields fs gs
  | _, _ => false
def JVal.beqList : List JVal → List JVal → Bool
  | [], [] => true
  | a :: as, b :: bs => JVal.beq a b && JVal.beqList as bs
  | _, _ => false
def JVal.beqFields : List (String × JVal) → List (String × JVal) → Bool
  | [], [] => true
  | (k, v) :: fs, (l, w) :: gs => k == l && JVal.beq v w && JVal.beqFields fs gs
  | _, _ => false
end

mutual
theorem JVal.eq_of_beq : ∀ a b : JVal, JVal.beq a b = true → a = b
  | .undefined, .undefined, _ => rfl
  | .undefined, .str _, h => by simp [JVal.beq] at h
  | .undefined, .arr _, h => by simp [JVal.beq] at h
  | .undefined, .obj _, h => by simp [JVal.beq] at h
  | .str _, .undefined, h => by simp [JVal.beq] at h
  | .str a, .str b, h => by
      simp only [JVal.beq, beq_iff_eq] at h
      exact congrArg JVal.str h
  | .str _, .arr _, h => by simp [JVal.beq] at h
  | .str _, .obj _, h => by simp [JVal.beq] at h
  | .arr _, .undefined, h => by simp [JVal.beq] at h
  | .arr _, .str _, h => by simp [JVal.beq] at h
  | .arr as, .arr bs, h => congrArg JVal.arr (JVal.eqList_of_beq as bs h)
  | .arr _, .obj _, h => by simp [JVal.beq] at h
  | .obj _, .undefined, h => by simp [JVal.beq] at h
  | .obj _, .str _, h => by simp [JVal.beq] at h
  | .obj _, .arr _, h => by simp [JVal.beq] at h
  | .obj fs, .obj gs, h => congrArg JVal.obj (JVal.eqFields_of_beq fs gs h)
theorem JVal.eqList_of_beq : ∀ as bs : List JVal, JVal.beqList as bs = true → as = bs
  | [], [], _ => rfl
  | [], _ :: _, h => by simp [JVal.beqList] at h
  | _ :: _, [], h => by simp [JVal.beqList] at h
  | a :: as, b :: bs, h => by
      simp only [JVal.beqList, Bool.and_eq_true] at h
      rw [JVal.eq_of_beq a b h.1, JVal.eqList_of_beq as bs h.2]
theorem JVal.eqFields_of_beq :
    ∀ fs gs : List (String × JVal), JVal.beqFields fs gs = true → fs = gs
  | [], [], _ => rfl
  | [], _ :: _, h => by simp [JVal.beqFields] at h
  | _ :: _, [], h => by simp [JVal.beqFields] at h
  | (k, v) :: fs, (l, w) :: gs, h => by
      simp only [JVal.beqFields, Bool.and_eq_true, beq_iff_eq] at h
      rw [h.1.1, JVal.eq_of_beq v w h.1.2, JVal.eqFields_of_beq fs gs h.2]
end

mutual
theorem JVal.beq_refl : ∀ a : JVal, JVal.beq a a = true
  | .undefined => rfl
  | .str s => by simp [JVal.beq]
  | .arr as => JVal.beqList_refl as
  | .obj fs => JVal.beqFields_refl fs
theorem JVal.beqList_refl : ∀ as : List JVal, JVal.beqList as as = true
  | [] => rfl
  | a :: as => by
      simp only [JVal.beqList, Bool.and_eq_true]
      exact ⟨JVal.beq_refl a, JVal.beqList_refl as⟩
theorem JVal.beqFields_refl : ∀ fs : List (String × JVal), JVal.beqFields fs fs = true
  | [] => rfl
  | (k, v) :: fs => by
      simp only [JVal.beqFields, Bool.and_eq_true, beq_self_eq_true]
      exact ⟨⟨trivial, JVal.beq_refl v⟩, JVal.beqFields_refl fs⟩
end

instance : DecidableEq JVal := fun a b =>
  decidable_of_iff (JVal.beq a b = true)
    ⟨JVal.eq_of_beq a b, fun h => h ▸ JVal.beq_refl a⟩

/-- JavaScript property access `v.k` (and the optional chain `v?.k`): the
field's value on an object that has the field, `undefined` otherwise. -/
def JVal.get (v : JVal) (k : String) : JVal :=
  match v with
  | .obj fs =>
      match fs.find? (fun p => p.1 == k) with
      | some p => p.2
      | none => .undefined
  | _ => .undefined

/-- JavaScript truthiness restricted to the values of `JVal`: `undefined`
(/`null`) and the empty string are falsy; any other string, and every array
or object (even empty ones), are truthy. -/
def JVal.truthy : JVal → Bool
  | .undefined => false
  | .str s => !(s == "")
  | .arr _ => true
  | .obj _ => true

/-- One live Socket.IO socket: its transport-assigned id and the rooms it is
in.  Socket.IO stores the rooms as a `Set`; we keep a duplicate-free list
(`Socket.join` below never inserts twice).  On connection a socket starts in
the single room named by its own id. -/
structure Socket where
  id : String
  rooms : List JVal
  deriving Repr, DecidableEq

/-- `socket.join(room)`: adds the room to the socket's room set
(no-op when already a member, as for a JS `Set`). -/
def Socket.join (s : Socket) (r : JVal) : Socket :=
  if r ∈ s.rooms then s else { s with rooms := s.rooms ++ [r] }

/-- The server state seen by the relay: the list of currently connected
sockets (the adapter's registry).  Transport-assigned ids are unique;
theorems that need this take it as a `Nodup` hypothesis. -/
structure SState where
  sockets : List Socket
  deriving Repr, DecidableEq

/-- A freshly connected socket: member of exactly the room named by its id. -/
def Socket.connect (sid : String) : Socket :=
  ⟨sid, [.str sid]⟩

/-- `socket.join` performed on the socket with the given id. -/
def SState.joinRoom (st : SState) (sid : String) (r : JVal) : SState :=
  ⟨st.sockets.map (fun s => if s.id = sid then s.join r else s)⟩

/-- One enqueued outbound packet: target socket, event name, payload. -/
structure Delivery where
  session : String
  event : String
  payload : JVal
  deriving Repr, DecidableEq

/-- `io.to(room).emit(ev, payload)`: enqueue the event to every connected
socket that is a member of `room` (in registry order).  `io.to` does not
exclude the originating socket. -/
def emitToRoom (st : SState) (room : JVal) (ev : String) (payload : JVal) :
    List Delivery :=
  (st.sockets.filter (fun s => decide (room ∈ s.rooms))).map
    (fun s => ⟨s.id, ev, payload⟩)

/-- Handler of `"setup"` (server.js lines 83–88):
`if (!userData?._id) return;` then `socket.join(userData._id)` and
`socket.emit("connected")` — the reply goes only to the originating socket,
with no payload (`undefined`). -/
def handleSetup (st : SState) (sid : String) (userData : JVal) :
    SState × List Delivery :=
  if (userData.get "_id").truthy then
    (st.joinRoom sid (userData.get "_id"), [⟨sid, "connected", .undefined⟩])
  else
    (st, [])

/-- Handler of `"join chat"` (lines 91–94): `socket.join(roomId)`,
unconditionally, emitting nothing. -/
def handleJoinChat (st : SState) (sid : String) (roomId : JVal) :
    SState × List Delivery :=
  (st.joinRoom sid roomId, [])

/-- Handler of `"new message"` (lines 97–105):
`const chat = message.chat; if (!chat?.users) return;` then for each
`user` of `chat.users`, skip when `user._id === message.sender._id`, else
`io.to(user._id).emit("message received", message)`.
(When `chat.users` is truthy but not an array, `forEach` would throw in JS;
no claim exercises that input, and the model then emits nothing.) -/
def handleNewMessage (st : SState) (message : JVal) : List Delivery :=
  let chatUsers := (message.get "chat").get "users"
  if !chatUsers.truthy then []
  else
    match chatUsers with
    | .arr users =>
        users.flatMap (fun user =>
          if user.get "_id" = (message.get "sender").get "_id" then []
          else emitToRoom st (user.get "_id") "message received" message)
    | _ => []

/-- Handler of `"call-user"` (lines 108–114): emit `incoming-call` to room
`data.to` with the freshly built object `{from, name, callType}`. -/
def handleCallUser (st : SState) (data : JVal) : List Delivery :=
  emitToRoom st (data.get "to") "incoming-call"
    (.obj [("from", data.get "from"), ("name", data.get "name"),
           ("callType", data.get "callType")])

/-- Handler of `"call-accepted"` (lines 116–118): emit `call-accepted` to
room `data.to` with `{from: data.from}`. -/
def handleCallAccepted (st : SState) (data : JVal) : List Delivery :=
  emitToRoom st (data.get "to") "call-accepted" (.obj [("from", data.get "from")])

/-- Handler of `"prepare-call"` (lines 121–123): emit `prepare-call` to room
`data.to` with `{from: data.from}`. -/
def handlePrepareCall (st : SState) (data : JVal) : List Delivery :=
  emitToRoom st (data.get "to") "prepare-call" (.obj [("from", data.get "from")])

/-- Handler of `"ready-for-offer"` (lines 125–127): emit `ready-for-offer`
to room `data.to` with `{from: data.from}`. -/
def handleReadyForOffer (st : SState) (data : JVal) : List Delivery :=
  emitToRoom st (data.get "to") "ready-for-offer" (.obj [("from", data.get "from")])

/-- Handler of `"webrtc-offer"` (lines 130–132): relay `data` verbatim to
room `data.to`. -/
def handleWebrtcOffer (st : SState) (data : JVal) : List Delivery :=
  emitToRoom st (data.get "to") "webrtc-offer" data

/-- Handler of `"webrtc-answer"` (lines 134–136): relay `data` verbatim to
room `data.to`. -/
def handleWebrtcAnswer (st : SState) (data : JVal) : List Delivery :=
  emitToRoom st (data.get "to") "webrtc-answer" data

/-- Handler of `"webrtc-ice-candidate"` (lines 138–140): relay `data`
verbatim to room `data.to`. -/
def handleWebrtcIceCandidate (st : SState) (data : JVal) : List Delivery :=
  emitToRoom st (data.get "to") "webrtc-ice-candidate" data

/-- Handler of `"end-call"` (lines 142–144): relay `data` verbatim to room
`data.to`. -/
def handleEndCall (st : SState) (data : JVal) : List Delivery :=
  emitToRoom st (data.get "to") "end-call" data

/-- Handler of `"disconnecting"` (lines 147–154): while the socket is still
registered (and still in its rooms), for every room in its room set other
than the room equal to its own id, emit `peer-disconnected {socketId}` to
that room. -/
def handleDisconnecting (st : SState) (sid : String) : List Delivery :=
  match st.sockets.find? (fun s => s.id == sid) with
  | some s =>
      (s.rooms.filter (fun r => decide (r ≠ .str sid))).flatMap
        (fun r => emitToRoom st r "peer-disconnected"
          (.obj [("socketId", .str sid)]))
  | none => []

/-- The inbound dispatch table of the `connection` block for the events a
client can send (socket.io ignores events with no registered listener,
modelled by the no-op default branch). -/
def handleEvent (st : SState) (sid : String) (ev : String) (payload : JVal) :
    SState × List Delivery :=
  if ev = "setup" then handleSetup st sid payload
  else if ev = "join chat" then handleJoinChat st sid payload
  else if ev = "new message" then (st, handleNewMessage st payload)
  else if ev = "call-user" then (st, handleCallUser st payload)
  else if ev = "call-accepted" then (st, handleCallAccepted st payload)
  else if ev = "prepare-call" then (st, handlePrepareCall st payload)
  else if ev = "ready-for-offer" then (st, handleReadyForOffer st payload)
  else if ev = "webrtc-offer" then (st, handleWebrtcOffer st payload)
  else if ev = "webrtc-answer" then (st, handleWebrtcAnswer st payload)
  else if ev = "webrtc-ice-candidate" then (st, handleWebrtcIceCandidate st payload)
  else if ev = "end-call" then (st, handleEndCall st payload)
  else (st, [])

/-! ## Helper lemmas about `emitToRoom` and the registry -/

theorem mem_emitToRoom {st : SState} {room : JVal} {ev : String} {p : JVal}
    {d : Delivery} :
    d ∈ emitToRoom st room ev p ↔
      ∃ s ∈ st.sockets, room ∈ s.rooms ∧ d = ⟨s.id, ev, p⟩ := by
  simp only [emitToRoom, List.mem_map, List.mem_filter, decide_eq_true_eq]
  constructor
  · rintro ⟨s, ⟨hs, hr⟩, rfl⟩
    exact ⟨s, hs, hr, rfl⟩
  · rintro ⟨s, hs, hr, rfl⟩
    exact ⟨s, ⟨hs, hr⟩, rfl⟩

theorem emitToRoom_delivery {st : SState} {room : JVal} {ev : String} {p : JVal}
    {s : Socket} (hs : s ∈ st.sockets) (hr : room ∈ s.rooms) :
    (⟨s.id, ev, p⟩ : Delivery) ∈ emitToRoom st room ev p :=
  mem_emitToRoom.mpr ⟨s, hs, hr, rfl⟩

theorem emitToRoom_eq_nil {st : SState} {room : JVal} {ev : String} {p : JVal}
    (h : ∀ s ∈ st.sockets, room ∉ s.rooms) :
    emitToRoom st room ev p = [] := by
  unfold emitToRoom
  rw [List.filter_eq_nil_iff.mpr]
  · rfl
  · intro s hs
    simpa using h s hs

theorem eq_of_mem_of_nodup_ids {st : SState} {x s : Socket}
    (hnodup : (st.sockets.map Socket.id).Nodup)
    (hx : x ∈ st.sockets) (hs : s ∈ st.sockets) (hid : x.id = s.id) : x = s :=
  List.inj_on_of_nodup_map hnodup hx hs hid

/-- In a registry with unique ids, the deliveries of one `io.to(room).emit`
that target socket `t` number one when `t` is in the room and zero
otherwise. -/
theorem length_filter_emitToRoom {st : SState} {room : JVal} {ev : String}
    {p : JVal} {t : Socket}
    (hnodup : (st.sockets.map Socket.id).Nodup) (ht : t ∈ st.sockets) :
    ((emitToRoom st room ev p).filter (fun d => d.session == t.id)).length
      = if room ∈ t.rooms then 1 else 0 := by
  unfold emitToRoom
  rw [List.filter_map, List.length_map, List.filter_filter]
  obtain ⟨l⟩ := st
  simp only at hnodup ht ⊢
  induction l with
  | nil => cases ht
  | cons a l ih =>
    simp only [List.map_cons, List.nodup_cons] at hnodup
    rcases List.mem_cons.mp ht with rfl | hta
    · simp only [List.filter_cons, Function.comp_apply, beq_self_eq_true,
        Bool.and_true]
      have htail :
          l.filter (fun s => (fun d : Delivery => d.session == t.id)
              ((fun s : Socket => (⟨s.id, ev, p⟩ : Delivery)) s)
            && decide (room ∈ s.rooms)) = [] := by
        rw [List.filter_eq_nil_iff]
        intro s hsl
        simp only [Function.comp_apply, Bool.and_eq_true, beq_iff_eq,
          decide_eq_true_eq, not_and]
        intro hids
        exact absurd (hids ▸ List.mem_map_of_mem Socket.id hsl) hnodup.1
      by_cases hmem : room ∈ t.rooms
      · simp [hmem, htail]
      · simp [hmem, htail]
    · have hid : ¬(a.id == t.id) = true := by
        simp only [beq_iff_eq]
        intro h
        exact hnodup.1 (h ▸ List.mem_map_of_mem Socket.id hta)
      simp only [List.filter_cons, Function.comp_apply]
      rw [if_neg (by simp [hid])]
      exact ih hnodup.2 hta

theorem filter_emitToRoom_eq_nil {st : SState} {room : JVal} {ev : String}
    {p : JVal} {t : Socket}
    (hnodup : (st.sockets.map Socket.id).Nodup) (ht : t ∈ st.sockets)
    (hr : room ∉ t.rooms) :
    (emitToRoom st room ev p).filter (fun d => d.session == t.id) = [] := by
  rw [← List.length_eq_zero]
  rw [length_filter_emitToRoom hnodup ht, if_neg hr]

theorem Socket.join_id (s : Socket) (r : JVal) : (s.join r).id = s.id := by
  unfold Socket.join
  split <;> rfl

theorem Socket.join_rooms_subset (s : Socket) (r : JVal) :
    s.rooms ⊆ (s.join r).rooms := by
  unfold Socket.join
  split
  · exact fun x hx => hx
  · exact fun x hx => List.mem_append_left _ hx

theorem Socket.mem_join (s : Socket) (r : JVal) : r ∈ (s.join r).rooms := by
  unfold Socket.join
  split
  · assumption
  · exact List.mem_append_right _ (List.mem_singleton.mpr rfl)

/-- `socket.join` leaves every socket's id in place, never removes a room,
adds the room on the joining socket and changes nothing on the others. -/
theorem joinRoom_monotone (st : SState) (sid : String) (r : JVal) (s : Socket)
    (hs : s ∈ st.sockets) :
    ∃ s' ∈ (st.joinRoom sid r).sockets,
      s'.id = s.id ∧ s.rooms ⊆ s'.rooms
      ∧ (s.id = sid → r ∈ s'.rooms) ∧ (s.id ≠ sid → s' = s) := by
  refine ⟨if s.id = sid then s.join r else s, ?_, ?_, ?_, ?_, ?_⟩
  · exact List.mem_map_of_mem _ hs
  · split
    · exact Socket.join_id s r
    · rfl
  · split
    · exact Socket.join_rooms_subset s r
    · exact fun x hx => hx
  · intro h
    rw [if_pos h]
    exact Socket.mem_join s r
  · intro h
    rw [if_neg h]

/-! ## Concrete scenario material shared by witnesses and counterexamples -/

/-- A chat participant object `{_id: x}` as it appears in `chat.users` and
`sender` of a message envelope. -/
def chatUser (x : String) : JVal := .obj [("_id", .str x)]

/-- Registry with identity `B` bound on the two sockets `b1`, `b2`. -/
def stTwoDevices : SState :=
  ⟨[⟨"b1", [.str "b1", .str "B"]⟩, ⟨"b2", [.str "b2", .str "B"]⟩]⟩

/-- A well-formed `call-user` payload addressed to identity `B`. -/
def callPayloadB : JVal :=
  .obj [("to", .str "B"), ("from", .str "A"), ("name", .str "Alice"),
        ("callType", .str "video")]

/-! ## Claim theorems -/

/-- C2: for every identity `B`, handling `call-user{to:B, from, name,
callType}` delivers `incoming-call` carrying `{from, name, callType}` to
every live session that is in room `B` (i.e. every session bound to `B` via
`setup`), not just one: the emit targets the whole room. -/
theorem callUser_multi_device (st : SState) (d : JVal) (B : String) (s : Socket)
    (hs : s ∈ st.sockets) (hto : d.get "to" = .str B) (hb : .str B ∈ s.rooms) :
    (⟨s.id, "incoming-call",
        .obj [("from", d.get "from"), ("name", d.get "name"),
              ("callType", d.get "callType")]⟩ : Delivery) ∈ handleCallUser st d := by
  unfold handleCallUser
  rw [hto]
  exact emitToRoom_delivery hs hb

/-- C2 witness: with identity `B` live on the two sockets `b1` and `b2`,
`call-user{to:B}` reaches both. -/
theorem callUser_multi_device_witness :
    (⟨"b1", "incoming-call",
        .obj [("from", .str "A"), ("name", .str "Alice"),
              ("callType", .str "video")]⟩ : Delivery)
        ∈ handleCallUser stTwoDevices callPayloadB
    ∧ (⟨"b2", "incoming-call",
        .obj [("from", .str "A"), ("name", .str "Alice"),
              ("callType", .str "video")]⟩ : Delivery)
        ∈ handleCallUser stTwoDevices callPayloadB :=
  ⟨callUser_multi_device stTwoDevices callPayloadB "B"
      ⟨"b1", [.str "b1", .str "B"]⟩ (by decide) (by decide) (by decide),
   callUser_multi_device stTwoDevices callPayloadB "B"
      ⟨"b2", [.str "b2", .str "B"]⟩ (by decide) (by decide) (by decide)⟩

/-- C6: relaying `webrtc-offer{to:B, from:A, offer:X}` delivers the payload
verbatim to every session in room `B`; B's reply
`webrtc-answer{to:A, from:B, answer:Y}` is then delivered verbatim to every
session in room `A`, so each of A's sessions receives a `webrtc-answer`
whose `answer` field is exactly `Y` and whose `from` field is `B`.  (The
relay handlers never modify the registry, so the state at the reply step is
the same registry.) -/
theorem webrtc_round_trip (st : SState) (d1 d2 : JVal) (A B : String) (Y : JVal)
    (h1to : d1.get "to" = .str B)
    (h2to : d2.get "to" = .str A) (h2from : d2.get "from" = .str B)
    (h2ans : d2.get "answer" = Y) :
    (∀ s ∈ st.sockets, .str B ∈ s.rooms →
        (⟨s.id, "webrtc-offer", d1⟩ : Delivery) ∈ handleWebrtcOffer st d1)
    ∧ ∀ s ∈ st.sockets, .str A ∈ s.rooms →
        ∃ d ∈ handleWebrtcAnswer st d2,
          d.session = s.id ∧ d.event = "webrtc-answer" ∧ d.payload = d2
            ∧ d.payload.get "answer" = Y ∧ d.payload.get "from" = .str B := by
  constructor
  · intro s hs hr
    unfold handleWebrtcOffer
    rw [h1to]
    exact emitToRoom_delivery hs hr
  · intro s hs hr
    refine ⟨⟨s.id, "webrtc-answer", d2⟩, ?_, rfl, rfl, rfl, h2ans, h2from⟩
    unfold handleWebrtcAnswer
    rw [h2to]
    exact emitToRoom_delivery hs hr

/-- Registry for the C6 witness: `A` is live on `a1` and `a2`, `B` on `b1`. -/
def stRoundTrip : SState :=
  ⟨[⟨"a1", [.str "a1", .str "A"]⟩, ⟨"a2", [.str "a2", .str "A"]⟩,
    ⟨"b1", [.str "b1", .str "B"]⟩]⟩

/-- The offer and the reply of the C6 witness. -/
def offerPayload : JVal :=
  .obj [("to", .str "B"), ("from", .str "A"), ("offer", .str "sdp-offer-X")]

def answerPayload : JVal :=
  .obj [("to", .str "A"), ("from", .str "B"), ("answer", .str "sdp-answer-Y")]

/-- C6 witness: the offer reaches `b1`; the reply reaches both of A's
sessions with the `answer` payload preserved byte-for-byte. -/
theorem webrtc_round_trip_witness :
    ((⟨"b1", "webrtc-offer", offerPayload⟩ : Delivery)
        ∈ handleWebrtcOffer stRoundTrip offerPayload)
    ∧ (∃ d ∈ handleWebrtcAnswer stRoundTrip answerPayload,
        d.session = "a1" ∧ d.event = "webrtc-answer" ∧ d.payload = answerPayload
          ∧ d.payload.get "answer" = .str "sdp-answer-Y"
          ∧ d.payload.get "from" = .str "B")
    ∧ ∃ d ∈ handleWebrtcAnswer stRoundTrip answerPayload,
        d.session = "a2" ∧ d.event = "webrtc-answer" ∧ d.payload = answerPayload
          ∧ d.payload.get "answer" = .str "sdp-answer-Y"
          ∧ d.payload.get "from" = .str "B" := by
  have h := webrtc_round_trip stRoundTrip offerPayload answerPayload "A" "B"
    (.str "sdp-answer-Y") (by decide) (by decide) (by decide) (by decide)
  exact ⟨h.1 ⟨"b1", [.str "b1", .str "B"]⟩ (by decide) (by decide),
         h.2 ⟨"a1", [.str "a1", .str "A"]⟩ (by decide) (by decide),
         h.2 ⟨"a2", [.str "a2", .str "A"]⟩ (by decide) (by decide)⟩

/-- C8: a call-signaling event addressed to an identity with zero live
sessions (no socket in that room) produces zero deliveries — for every one
of the eight relayed call events — and the registry is left untouched (the
`call-user` branch of the dispatch returns the state unchanged), so no error
is surfaced to the sender and no other session is affected. -/
theorem unknown_destination_drop (st : SState) (d : JVal) (g : String)
    (hto : d.get "to" = .str g)
    (hoff : ∀ s ∈ st.sockets, .str g ∉ s.rooms) :
    handleCallUser st d = [] ∧ handleCallAccepted st d = []
    ∧ handlePrepareCall st d = [] ∧ handleReadyForOffer st d = []
    ∧ handleWebrtcOffer st d = [] ∧ handleWebrtcAnswer st d = []
    ∧ handleWebrtcIceCandidate st d = [] ∧ handleEndCall st d = []
    ∧ ∀ sid, (handleEvent st sid "call-user" d).1 = st := by
  refine ⟨?_, ?_, ?_, ?_, ?_, ?_, ?_, ?_, fun _ => rfl⟩ <;>
    · simp only [handleCallUser, handleCallAccepted, handlePrepareCall,
        handleReadyForOffer, handleWebrtcOffer, handleWebrtcAnswer,
        handleWebrtcIceCandidate, handleEndCall, hto]
      exact emitToRoom_eq_nil hoff

/-- C8 witness: nobody is bound to `"ghost"`; `call-user{to:"ghost",
from:"u1"}` (and every other signaling event with that destination) delivers
nothing and leaves the registry as it was. -/
theorem unknown_destination_drop_witness :
    handleCallUser stTwoDevices (.obj [("to", .str "ghost"), ("from", .str "u1")]) = []
    ∧ (handleEvent stTwoDevices "b1" "call-user"
        (.obj [("to", .str "ghost"), ("from", .str "u1")])).1 = stTwoDevices := by
  have h := unknown_destination_drop stTwoDevices
    (.obj [("to", .str "ghost"), ("from", .str "u1")]) "ghost"
    (by decide) (by decide)
  exact ⟨h.1, h.2.2.2.2.2.2.2.2 "b1"⟩

/-- Registry and payload refuting C4: identity `B` is live on `b1`; the
`call-user` payload has `to` and `name`/`callType` but no `from`. -/
def stMissingFrom : SState := ⟨[⟨"b1", [.str "b1", .str "B"]⟩]⟩

def callPayloadNoFrom : JVal :=
  .obj [("to", .str "B"), ("name", .str "Al"), ("callType", .str "video")]

/-- C4 counterexample: an inbound `call-user` whose payload is missing the
required addressing field `from` is **not** dropped — it is delivered to
`b1` as `incoming-call` with `from` equal to `undefined`, contradicting the
claim that no event is delivered to any session. -/
theorem callUser_missing_from_still_delivered :
    handleCallUser stMissingFrom callPayloadNoFrom
      = [⟨"b1", "incoming-call",
          .obj [("from", .undefined), ("name", .str "Al"),
                ("callType", .str "video")]⟩] := by decide

/-- C4 (amended): a call-signaling payload missing `to` is emitted to the
`undefined` room, hence delivered to no session as long as no session has
joined that room, and a message envelope whose `chat.users` is missing
(falsy) is dropped by the guard; in both cases no event of any kind — in
particular no error — is enqueued.  A payload missing only `from` is not
dropped: the event is still relayed, with `from` = `undefined` (see the
counterexample above). -/
theorem missing_to_or_users_dropped (st : SState) (d m : JVal)
    (hnou : ∀ s ∈ st.sockets, JVal.undefined ∉ s.rooms)
    (hto : d.get "to" = .undefined)
    (hm : ((m.get "chat").get "users").truthy = false) :
    handleCallUser st d = [] ∧ handleCallAccepted st d = []
    ∧ handlePrepareCall st d = [] ∧ handleReadyForOffer st d = []
    ∧ handleWebrtcOffer st d = [] ∧ handleWebrtcAnswer st d = []
    ∧ handleWebrtcIceCandidate st d = [] ∧ handleEndCall st d = []
    ∧ handleNewMessage st m = [] := by
  have hmsg : handleNewMessage st m = [] := by
    simp only [handleNewMessage]
    rw [hm]
    simp
  refine ⟨?_, ?_, ?_, ?_, ?_, ?_, ?_, ?_, hmsg⟩
  all_goals
    simp only [handleCallUser, handleCallAccepted, handlePrepareCall,
      handleReadyForOffer, handleWebrtcOffer, handleWebrtcAnswer,
      handleWebrtcIceCandidate, handleEndCall, hto]
    exact emitToRoom_eq_nil hnou

/-- C4 witness: a registry in which no socket joined the `undefined` room, a
signaling payload with no `to`, and a message with no `chat` at all. -/
theorem missing_to_or_users_dropped_witness :
    handleCallUser stTwoDevices (.obj [("from", .str "A")]) = []
    ∧ handleNewMessage stTwoDevices
        (.obj [("sender", chatUser "A"), ("content", .str "hi")]) = [] := by
  have h := missing_to_or_users_dropped stTwoDevices
    (.obj [("from", .str "A")])
    (.obj [("sender", chatUser "A"), ("content", .str "hi")])
    (by decide) (by decide) (by decide)
  exact ⟨h.1, h.2.2.2.2.2.2.2.2⟩

/-- C7: `setup` with a falsy `_id` (missing or empty identity) is a silent
no-op — registry unchanged and nothing emitted; `setup` with a non-empty
string `_id` emits `connected` to the originating session only and joins
that session (and no other) to the identity's room, without removing any
existing membership. -/
theorem setup_binding (st : SState) (sid : String) (userData : JVal) :
    ((userData.get "_id").truthy = false → handleSetup st sid userData = (st, []))
    ∧ ∀ i : String, userData.get "_id" = .str i → i ≠ "" →
        (handleSetup st sid userData).2 = [⟨sid, "connected", .undefined⟩]
        ∧ ∀ s ∈ st.sockets,
            ∃ s' ∈ (handleSetup st sid userData).1.sockets,
              s'.id = s.id ∧ s.rooms ⊆ s'.rooms
              ∧ (s.id = sid → .str i ∈ s'.rooms)
              ∧ (s.id ≠ sid → s' = s) := by
  constructor
  · intro h
    unfold handleSetup
    rw [h]
    simp
  · intro i hi hne
    have hset : handleSetup st sid userData
        = (st.joinRoom sid (.str i), [⟨sid, "connected", .undefined⟩]) := by
      unfold handleSetup
      rw [hi]
      simp [JVal.truthy, hne]
    rw [hset]
    exact ⟨rfl, fun s hs => joinRoom_monotone st sid (.str i) s hs⟩

/-- Registry for the C7 witness: two freshly connected, unbound sockets. -/
def stSetup : SState := ⟨[⟨"s1", [.str "s1"]⟩, ⟨"s2", [.str "s2"]⟩]⟩

/-- C7 witness: a payload without `_id` is a no-op; `{_id:"D"}` makes `s1`
reply `connected` to itself only. -/
theorem setup_binding_witness :
    handleSetup stSetup "s1" (.obj [("name", .str "nameless")]) = (stSetup, [])
    ∧ (handleSetup stSetup "s1" (.obj [("_id", .str "D")])).2
        = [⟨"s1", "connected", .undefined⟩] :=
  ⟨(setup_binding stSetup "s1" (.obj [("name", .str "nameless")])).1 (by decide),
   ((setup_binding stSetup "s1" (.obj [("_id", .str "D")])).2 "D"
      (by decide) (by decide)).1⟩

theorem chatUser_id (x : String) : (chatUser x).get "_id" = .str x := rfl

/-- The `new message` handler, once the envelope is known to carry a users
array and a sender id: one emit per user of `chat.users` whose `_id` is not
the sender's, to the room named by that `_id`. -/
theorem handleNewMessage_eq (st : SState) (msg : JVal) (A : String)
    (users : List JVal)
    (hU : (msg.get "chat").get "users" = .arr users)
    (hS : (msg.get "sender").get "_id" = .str A) :
    handleNewMessage st msg = users.flatMap (fun user =>
      if user.get "_id" = .str A then []
      else emitToRoom st (user.get "_id") "message received" msg) := by
  simp only [handleNewMessage]
  rw [hU]
  simp only [hS, JVal.truthy, Bool.not_true, Bool.if_false_left,
    Bool.false_eq_true, if_false]

/-- C1: with sessions `a1,a2` bound to identity `A`, `b1` to `B`, `c1` to
`C` (all distinct identities, none colliding with a session id), a
`new message` envelope with `chat.users = [A,B,C]` and `sender._id = A` is
delivered as `message received` exactly to `b1` and `c1`, each once, and to
no session bound to `A`. -/
theorem newMessage_fanout_self_exclusion (A B C : String) (msg : JVal)
    (hU : (msg.get "chat").get "users" = .arr [chatUser A, chatUser B, chatUser C])
    (hS : (msg.get "sender").get "_id" = .str A)
    (hBA : B ≠ A) (hCA : C ≠ A) (hCB : C ≠ B)
    (hBa1 : B ≠ "a1") (hBa2 : B ≠ "a2") (hBc1 : B ≠ "c1")
    (hCa1 : C ≠ "a1") (hCa2 : C ≠ "a2") (hCb1 : C ≠ "b1") :
    (handleNewMessage
        ⟨[⟨"a1", [.str "a1", .str A]⟩, ⟨"a2", [.str "a2", .str A]⟩,
          ⟨"b1", [.str "b1", .str B]⟩, ⟨"c1", [.str "c1", .str C]⟩]⟩ msg).map
        (fun d => (d.session, d.event, d.payload))
      = [("b1", "message received", msg), ("c1", "message received", msg)] := by
  simp only [handleNewMessage]
  rw [hU]
  simp [emitToRoom, chatUser_id, hS, hBA, hCA, hCB, Ne.symm hCB,
    hBa1, hBa2, hBc1, hCa1, hCa2, hCb1, JVal.truthy, List.filter_cons,
    JVal.str.injEq]

/-- The message envelope of the C1 witness (and the §8 scenario): sender
`A`, participants `A`, `B`, `C`. -/
def msgABC : JVal :=
  .obj [("chat", .obj [("_id", .str "chat1"),
                       ("users", .arr [chatUser "A", chatUser "B", chatUser "C"])]),
        ("sender", chatUser "A"), ("content", .str "hi")]

/-- C1 witness: the concrete scenario delivers to exactly `b1` and `c1`. -/
theorem newMessage_fanout_self_exclusion_witness :
    (handleNewMessage
        ⟨[⟨"a1", [.str "a1", .str "A"]⟩, ⟨"a2", [.str "a2", .str "A"]⟩,
          ⟨"b1", [.str "b1", .str "B"]⟩, ⟨"c1", [.str "c1", .str "C"]⟩]⟩ msgABC).map
        (fun d => (d.session, d.event, d.payload))
      = [("b1", "message received", msgABC), ("c1", "message received", msgABC)] :=
  newMessage_fanout_self_exclusion "A" "B" "C" msgABC (by decide) (by decide)
    (by decide) (by decide) (by decide) (by decide) (by decide) (by decide)
    (by decide) (by decide) (by decide)

/-- Registry refuting C5: identity `A` is live on `a1` and `a2`, `B` on
`b1`; the message is sent from `a1` with `chat.users = [A,B]`. -/
def stSenderTabs : SState :=
  ⟨[⟨"a1", [.str "a1", .str "A"]⟩, ⟨"a2", [.str "a2", .str "A"]⟩,
    ⟨"b1", [.str "b1", .str "B"]⟩]⟩

def msgAB : JVal :=
  .obj [("chat", .obj [("_id", .str "chat1"),
                       ("users", .arr [chatUser "A", chatUser "B"])]),
        ("sender", chatUser "A"), ("content", .str "hi")]

/-- C5 counterexample: the sender identity `A` has the second live session
`a2`, yet handling the `new message` delivers `message received` to `b1`
only — `a2`, the sender's other open tab, receives nothing, because the
handler skips the whole room of the sender identity. -/
theorem sender_other_tab_receives_nothing :
    (handleNewMessage stSenderTabs msgAB).map (fun d => d.session) = ["b1"] := by
  decide

/-- C5 (amended): self-exclusion compares against the `sender` identity, so
it excludes **every** session bound to the sender identity — in particular
the sender's other open tabs: a session whose rooms are only its own id
room and the sender identity's room (and whose id names no chat
participant) receives no `message received` delivery.  Sessions bound to
the other identities of `chat.users` still receive it. -/
theorem sender_identity_sessions_excluded (st : SState) (msg : JVal)
    (A : String) (users : List JVal) (s : Socket)
    (hU : (msg.get "chat").get "users" = .arr users)
    (hS : (msg.get "sender").get "_id" = .str A)
    (hnodup : (st.sockets.map Socket.id).Nodup) (hs : s ∈ st.sockets)
    (hrooms : ∀ r ∈ s.rooms, r = .str s.id ∨ r = .str A)
    (hnotself : ∀ u ∈ users, u.get "_id" ≠ .str s.id) :
    (handleNewMessage st msg).filter (fun d => d.session == s.id) = [] := by
  rw [handleNewMessage_eq st msg A users hU hS]
  rw [List.filter_eq_nil_iff]
  intro d hd
  rw [List.mem_flatMap] at hd
  obtain ⟨u, hu, hdu⟩ := hd
  by_cases hcase : u.get "_id" = .str A
  · rw [if_pos hcase] at hdu
    cases hdu
  · rw [if_neg hcase] at hdu
    obtain ⟨x, hx, hxr, rfl⟩ := mem_emitToRoom.mp hdu
    simp only [beq_iff_eq]
    intro hxs
    have hxeq : x = s := eq_of_mem_of_nodup_ids hnodup hx hs hxs
    subst hxeq
    rcases hrooms _ hxr with h1 | h2
    · exact hnotself u hu h1
    · exact hcase h2

/-- C5 amended-claim witness: in the counterexample scenario, `a2` (bound
only to the sender identity `A`) gets nothing. -/
theorem sender_identity_sessions_excluded_witness :
    (handleNewMessage stSenderTabs msgAB).filter (fun d => d.session == "a2") = [] :=
  sender_identity_sessions_excluded stSenderTabs msgAB "A"
    [chatUser "A", chatUser "B"] ⟨"a2", [.str "a2", .str "A"]⟩
    (by decide) (by decide) (by decide) (by decide)
    (by decide) (by decide)

/-- C9: message routing ignores chat-room membership.  A session bound to a
non-sender identity `B` listed in `chat.users` receives the message even
with no hypothesis that it ever joined the chat's room; and a session that
did join some room (e.g. the chat's room id) but has none of the
`chat.users` identities' rooms receives nothing. -/
theorem message_routing_ignores_rooms (st : SState) (msg : JVal)
    (A B : String) (users : List JVal) (sB sC : Socket)
    (hU : (msg.get "chat").get "users" = .arr users)
    (hS : (msg.get "sender").get "_id" = .str A)
    (hnodup : (st.sockets.map Socket.id).Nodup)
    (hsB : sB ∈ st.sockets) (hBroom : .str B ∈ sB.rooms)
    (hBuser : ∃ u ∈ users, u.get "_id" = .str B) (hBA : B ≠ A)
    (hsC : sC ∈ st.sockets)
    (hCnone : ∀ u ∈ users, u.get "_id" ∉ sC.rooms) :
    ((⟨sB.id, "message received", msg⟩ : Delivery) ∈ handleNewMessage st msg)
    ∧ (handleNewMessage st msg).filter (fun d => d.session == sC.id) = [] := by
  rw [handleNewMessage_eq st msg A users hU hS]
  constructor
  · obtain ⟨u, hu, huB⟩ := hBuser
    rw [List.mem_flatMap]
    refine ⟨u, hu, ?_⟩
    rw [if_neg (by rw [huB]; simpa using hBA), huB]
    exact emitToRoom_delivery hsB hBroom
  · rw [List.filter_eq_nil_iff]
    intro d hd
    rw [List.mem_flatMap] at hd
    obtain ⟨u, hu, hdu⟩ := hd
    by_cases hcase : u.get "_id" = .str A
    · rw [if_pos hcase] at hdu
      cases hdu
    · rw [if_neg hcase] at hdu
      obtain ⟨x, hx, hxr, rfl⟩ := mem_emitToRoom.mp hdu
      simp only [beq_iff_eq]
      intro hxs
      have hxeq : x = sC := eq_of_mem_of_nodup_ids hnodup hx hsC hxs
      subst hxeq
      exact hCnone u hu hxr

/-- Registry for the C9 witness: `b1` is bound to `B` but never joined the
chat room `chat1`; `x1` joined `chat1` but its identity `X` is not in
`chat.users`. -/
def stRoomsIgnored : SState :=
  ⟨[⟨"a1", [.str "a1", .str "A", .str "chat1"]⟩,
    ⟨"b1", [.str "b1", .str "B"]⟩,
    ⟨"x1", [.str "x1", .str "X", .str "chat1"]⟩]⟩

/-- C9 witness: `b1` receives the message without having joined `chat1`;
`x1` receives nothing although it joined `chat1`. -/
theorem message_routing_ignores_rooms_witness :
    ((⟨"b1", "message received", msgAB⟩ : Delivery)
        ∈ handleNewMessage stRoomsIgnored msgAB)
    ∧ (handleNewMessage stRoomsIgnored msgAB).filter
        (fun d => d.session == "x1") = [] :=
  message_routing_ignores_rooms stRoomsIgnored msgAB "A" "B"
    [chatUser "A", chatUser "B"] ⟨"b1", [.str "b1", .str "B"]⟩
    ⟨"x1", [.str "x1", .str "X", .str "chat1"]⟩
    (by decide) (by decide) (by decide) (by decide) (by decide)
    ⟨chatUser "B", by decide, by decide⟩ (by decide) (by decide) (by decide)

/-- C3: when a session disconnects, for every room in its snapshot other
than the room equal to its own session id, one `peer-disconnected{socketId}`
is emitted to that room — so any other connected session `t` receives the
event exactly once per such room it shares with the disconnecting session
(hence zero times when it shares none, and zero events target rooms the
session never joined); every emitted event is `peer-disconnected` carrying
`{socketId}`. -/
theorem disconnect_notification (st : SState) (sid : String) (s t : Socket)
    (hfind : st.sockets.find? (fun x => x.id == sid) = some s)
    (hnodup : (st.sockets.map Socket.id).Nodup)
    (hroomset : s.rooms.Nodup)
    (ht : t ∈ st.sockets) (hts : t.id ≠ sid) :
    ((handleDisconnecting st sid).filter (fun d => d.session == t.id)).length
        = (s.rooms.filter
            (fun r => decide (r ≠ .str sid) && decide (r ∈ t.rooms))).length
    ∧ ∀ d ∈ handleDisconnecting st sid,
        d.event = "peer-disconnected"
        ∧ d.payload = .obj [("socketId", .str sid)] := by
  have hdd : handleDisconnecting st sid
      = (s.rooms.filter (fun r => decide (r ≠ .str sid))).flatMap
          (fun r => emitToRoom st r "peer-disconnected"
            (.obj [("socketId", .str sid)])) := by
    unfold handleDisconnecting
    rw [hfind]
  constructor
  · rw [hdd]
    have hsplit :
        s.rooms.filter (fun r => decide (r ≠ .str sid) && decide (r ∈ t.rooms))
          = (s.rooms.filter (fun r => decide (r ≠ .str sid))).filter
              (fun r => decide (r ∈ t.rooms)) := by
      rw [List.filter_filter]
      exact List.filter_congr (fun r _ => Bool.and_comm _ _)
    rw [hsplit]
    generalize s.rooms.filter (fun r => decide (r ≠ .str sid)) = rs
    induction rs with
    | nil => simp
    | cons r rs ih =>
      rw [List.flatMap_cons, List.filter_append, List.length_append, ih,
        List.filter_cons, length_filter_emitToRoom hnodup ht]
      by_cases hr : r ∈ t.rooms
      · simp [hr, Nat.add_comm]
      · simp [hr]
  · rw [hdd]
    intro d hd
    rw [List.mem_flatMap] at hd
    obtain ⟨r, hr, hdr⟩ := hd
    obtain ⟨x, hx, hxr, rfl⟩ := mem_emitToRoom.mp hdr
    exact ⟨rfl, rfl⟩

/-- Registry for the C3 witness: `s1` is in rooms `R1`,`R2`; `s2` shares
`R1`; `s3` shares `R1` and `R2`. -/
def stDisc : SState :=
  ⟨[⟨"s1", [.str "s1", .str "R1", .str "R2"]⟩,
    ⟨"s2", [.str "s2", .str "R1"]⟩,
    ⟨"s3", [.str "s3", .str "R1", .str "R2"]⟩]⟩

/-- C3 witness: on `s1`'s disconnect, `s3` (sharing both rooms) is targeted
exactly once per shared room. -/
theorem disconnect_notification_witness :
    ((handleDisconnecting stDisc "s1").filter
        (fun d => d.session == "s3")).length
      = ((⟨"s1", [.str "s1", .str "R1", .str "R2"]⟩ : Socket).rooms.filter
          (fun r => decide (r ≠ .str "s1")
            && decide (r ∈ (⟨"s3", [.str "s3", .str "R1", .str "R2"]⟩ : Socket).rooms))).length :=
  (disconnect_notification stDisc "s1"
    ⟨"s1", [.str "s1", .str "R1", .str "R2"]⟩
    ⟨"s3", [.str "s3", .str "R1", .str "R2"]⟩
    (by decide) (by decide) (by decide) (by decide) (by decide)).1

theorem get_id_singleton (v : JVal) : (JVal.obj [("_id", v)]).get "_id" = v := rfl

theorem joinRoom_superset (st : SState) (sid : String) (r : JVal) (s : Socket)
    (hs : s ∈ st.sockets) :
    ∃ s' ∈ (st.joinRoom sid r).sockets, s'.id = s.id ∧ s.rooms ⊆ s'.rooms := by
  obtain ⟨s', h1, h2, h3, _, _⟩ := joinRoom_monotone st sid r s hs
  exact ⟨s', h1, h2, h3⟩

set_option maxHeartbeats 3200000 in
/-- C10: no inbound event handler removes a room membership — after
dispatching any client event, every session's room set is a superset of
what it was (witnessed per session by the socket with its id in the new
registry); and in particular a second `setup` with a different identity
adds the new identity's room while keeping the first, after which
`call-user` events addressed to either identity are both delivered to that
session. -/
theorem room_membership_monotone (st : SState) (sid ev : String)
    (payload : JVal) (s : Socket) (hs : s ∈ st.sockets) :
    (∃ s' ∈ (handleEvent st sid ev payload).1.sockets,
        s'.id = s.id ∧ s.rooms ⊆ s'.rooms)
    ∧ ∀ i1 i2 : String, i1 ≠ "" → i2 ≠ "" → s.id = sid →
        ∃ s' ∈ ((handleEvent ((handleEvent st sid "setup"
              (.obj [("_id", .str i1)])).1) sid "setup"
              (.obj [("_id", .str i2)])).1).sockets,
          s'.id = sid ∧ .str i1 ∈ s'.rooms ∧ .str i2 ∈ s'.rooms
          ∧ (∃ d ∈ handleCallUser ((handleEvent ((handleEvent st sid "setup"
                (.obj [("_id", .str i1)])).1) sid "setup"
                (.obj [("_id", .str i2)])).1)
                (.obj [("to", .str i1), ("from", .str "caller")]),
              d.session = sid ∧ d.event = "incoming-call")
          ∧ ∃ d ∈ handleCallUser ((handleEvent ((handleEvent st sid "setup"
                (.obj [("_id", .str i1)])).1) sid "setup"
                (.obj [("_id", .str i2)])).1)
                (.obj [("to", .str i2), ("from", .str "caller")]),
              d.session = sid ∧ d.event = "incoming-call" := by
  have hself : ∃ s' ∈ st.sockets, s'.id = s.id ∧ s.rooms ⊆ s'.rooms :=
    ⟨s, hs, rfl, fun x hx => hx⟩
  constructor
  · unfold handleEvent
    split_ifs
    · unfold handleSetup
      split_ifs
      · exact joinRoom_superset st sid _ s hs
      · exact hself
    · exact joinRoom_superset st sid _ s hs
    all_goals exact hself
  · intro i1 i2 h1 h2 hsid
    have hsetup1 : handleSetup st sid (.obj [("_id", .str i1)])
        = (st.joinRoom sid (.str i1), [⟨sid, "connected", .undefined⟩]) := by
      unfold handleSetup
      rw [get_id_singleton]
      simp [JVal.truthy, h1]
    have e1 : (handleEvent st sid "setup" (.obj [("_id", .str i1)])).1
        = st.joinRoom sid (.str i1) := by
      rw [show handleEvent st sid "setup" (.obj [("_id", .str i1)])
            = handleSetup st sid (.obj [("_id", .str i1)]) from rfl, hsetup1]
    rw [e1]
    have hsetup2 : handleSetup (st.joinRoom sid (.str i1)) sid
        (.obj [("_id", .str i2)])
        = ((st.joinRoom sid (.str i1)).joinRoom sid (.str i2),
           [⟨sid, "connected", .undefined⟩]) := by
      unfold handleSetup
      rw [get_id_singleton]
      simp [JVal.truthy, h2]
    have e2 : (handleEvent (st.joinRoom sid (.str i1)) sid "setup"
        (.obj [("_id", .str i2)])).1
        = (st.joinRoom sid (.str i1)).joinRoom sid (.str i2) := by
      rw [show handleEvent (st.joinRoom sid (.str i1)) sid "setup"
            (.obj [("_id", .str i2)])
            = handleSetup (st.joinRoom sid (.str i1)) sid
              (.obj [("_id", .str i2)]) from rfl, hsetup2]
    rw [e2]
    obtain ⟨s1, hs1, hid1, hsub1, hm1, _⟩ :=
      joinRoom_monotone st sid (.str i1) s hs
    obtain ⟨s2, hs2, hid2, hsub2, hm2, _⟩ :=
      joinRoom_monotone (st.joinRoom sid (.str i1)) sid (.str i2) s1 hs1
    have hsid1 : s1.id = sid := by rw [hid1, hsid]
    have hsid2 : s2.id = sid := by rw [hid2, hsid1]
    have hi1 : .str i1 ∈ s2.rooms := hsub2 (hm1 hsid)
    have hi2 : .str i2 ∈ s2.rooms := hm2 hsid1
    refine ⟨s2, hs2, hsid2, hi1, hi2, ?_, ?_⟩
    · exact ⟨⟨s2.id, "incoming-call",
        .obj [("from", .str "caller"), ("name", .undefined), ("callType", .undefined)]⟩,
        emitToRoom_delivery hs2 hi1, hsid2, rfl⟩
    · exact ⟨⟨s2.id, "incoming-call",
        .obj [("from", .str "caller"), ("name", .undefined), ("callType", .undefined)]⟩,
        emitToRoom_delivery hs2 hi2, hsid2, rfl⟩

/-- C10 witness: `join chat` only grows `s1`'s rooms, and two successive
`setup`s with identities `A` then `B` leave `s1` in both identity rooms. -/
theorem room_membership_monotone_witness :
    (∃ s' ∈ (handleEvent stSetup "s1" "join chat" (.str "room1")).1.sockets,
        s'.id = "s1" ∧ (⟨"s1", [.str "s1"]⟩ : Socket).rooms ⊆ s'.rooms)
    ∧ ∃ s' ∈ ((handleEvent ((handleEvent stSetup "s1" "setup"
          (.obj [("_id", .str "A")])).1) "s1" "setup"
          (.obj [("_id", .str "B")])).1).sockets,
        s'.id = "s1" ∧ .str "A" ∈ s'.rooms ∧ .str "B" ∈ s'.rooms := by
  have h := room_membership_monotone stSetup "s1" "join chat" (.str "room1")
    ⟨"s1", [.str "s1"]⟩ (by decide)
  refine ⟨h.1, ?_⟩
  obtain ⟨s', hmem, hid, hA, hB, _, _⟩ := h.2 "A" "B" (by decide) (by decide) rfl
  exact ⟨s', hmem, hid, hA, hB⟩
